import Mathlib

/-!
Shallow embedding of the LakeB2B SlideSmith job/row orchestration engine
(`app/workers/tasks.py`, `app/routes/status.py`, `app/routes/upload.py`,
`app/routes/single.py`, `app/services/gamma_client.py`,
`app/services/researcher.py`, `app/services/excel_parser.py`), together with
theorems settling the specification claims about it.
-/

namespace LakeB2B

/-! ## Row status enum (app/models.py, class RowStatus) -/

inductive RowStatus
  | queued
  | researching
  | generating_content
  | creating_deck
  | complete
  | failed
  deriving DecidableEq, Repr

/-! ## Per-row Redis hash (key `job:{job_id}:row:{row_index}`)

The fields written by upload.py row initialization and by
`_update_row_status` in tasks.py. -/

structure RowRecord where
  company_name : String
  status : RowStatus
  deck_url : String
  pptx_url : String
  error : String
  deriving DecidableEq, Repr

/-- Initial per-row hash written by upload.py (and single.py): status queued,
empty deck/pptx/error fields. -/
def initRowRecord (company : String) : RowRecord :=
  ⟨company, RowStatus.queued, "", "", ""⟩

/-! ## Job-level counters (fields `completed` / `failed` of hash `job:{job_id}`) -/

structure JobCounters where
  completed : Nat
  failed : Nat
  deriving DecidableEq, Repr

/-! ## One call to `_update_row_status` (tasks.py lines 38-49)

`redis_client.hset(key, mapping=...)` updates exactly the supplied fields of
the row hash (field-wise upsert); the status field is always supplied, the
others only when passed as keyword arguments. The same call increments the
job-level `completed` counter when status is COMPLETE and the `failed`
counter when status is FAILED. -/

structure StatusWrite where
  status : RowStatus
  deck_url : Option String
  pptx_url : Option String
  error : Option String
  deriving DecidableEq, Repr

/-- A `_update_row_status` call that passes only the status. -/
def setStatus (s : RowStatus) : StatusWrite := ⟨s, none, none, none⟩

/-- Effect of one `_update_row_status` call on the row hash: hset semantics,
only supplied fields change. -/
def applyWriteRow (r : RowRecord) (w : StatusWrite) : RowRecord :=
  { r with
    status := w.status
    deck_url := w.deck_url.getD r.deck_url
    pptx_url := w.pptx_url.getD r.pptx_url
    error := w.error.getD r.error }

/-- Counter side effect of one `_update_row_status` call:
`hincrby(job_key, "completed", 1)` on COMPLETE,
`hincrby(job_key, "failed", 1)` on FAILED. -/
def applyWriteCounters (c : JobCounters) (w : StatusWrite) : JobCounters :=
  if w.status = RowStatus.complete then { c with completed := c.completed + 1 }
  else if w.status = RowStatus.failed then { c with failed := c.failed + 1 }
  else c

/-! ## One attempt of the row pipeline (tasks.py, process_prospect body)

An attempt either runs all three stages and reaches COMPLETE, or raises in
one of the stages, in which case the except-branch writes FAILED with the
formatted error message. -/

inductive Stage
  | research
  | content
  | deck
  deriving DecidableEq, Repr

inductive AttemptOutcome
  | ok (deck_url pptx_url : String)
  | err (stage : Stage) (msg : String)
  deriving DecidableEq, Repr

/-- The sequence of `_update_row_status` calls made by one execution of the
`try`/`except` body of process_prospect, given the attempt's outcome. -/
def attemptWrites : AttemptOutcome → List StatusWrite
  | AttemptOutcome.ok d p =>
      [setStatus RowStatus.researching,
       setStatus RowStatus.generating_content,
       setStatus RowStatus.creating_deck,
       ⟨RowStatus.complete, some d, some p, none⟩]
  | AttemptOutcome.err Stage.research m =>
      [setStatus RowStatus.researching,
       ⟨RowStatus.failed, none, none, some m⟩]
  | AttemptOutcome.err Stage.content m =>
      [setStatus RowStatus.researching,
       setStatus RowStatus.generating_content,
       ⟨RowStatus.failed, none, none, some m⟩]
  | AttemptOutcome.err Stage.deck m =>
      [setStatus RowStatus.researching,
       setStatus RowStatus.generating_content,
       setStatus RowStatus.creating_deck,
       ⟨RowStatus.failed, none, none, some m⟩]

/-- Celery task option `max_retries=2` on process_prospect. -/
def max_retries : Nat := 2

/-- Celery redelivery loop of process_prospect: attempt `k` runs; on success
the task returns; on failure the FAILED write has already been made and
`self.retry` re-queues the task while `self.request.retries < max_retries`,
i.e. while further attempts remain. `left` is the number of attempts still
allowed including the current one (initially `max_retries + 1`). -/
def runRowAux (outcomes : Nat → AttemptOutcome) : Nat → Nat → List StatusWrite
  | _, 0 => []
  | k, left + 1 =>
    match outcomes k with
    | AttemptOutcome.ok d p => attemptWrites (AttemptOutcome.ok d p)
    | AttemptOutcome.err st m =>
        attemptWrites (AttemptOutcome.err st m) ++ runRowAux outcomes (k + 1) left

/-- All `_update_row_status` calls a row makes across its celery attempts. -/
def runRow (outcomes : Nat → AttemptOutcome) : List StatusWrite :=
  runRowAux outcomes 0 (max_retries + 1)

/-- The row's status history as observable in Redis: the initial QUEUED from
upload.py followed by every status written by `_update_row_status`. -/
def rowStatusTrace (outcomes : Nat → AttemptOutcome) : List RowStatus :=
  RowStatus.queued :: (runRow outcomes).map StatusWrite.status

/-- Final row hash after the row's attempts, starting from the upload.py
initialization. -/
def finalRow (company : String) (outcomes : Nat → AttemptOutcome) : RowRecord :=
  (runRow outcomes).foldl applyWriteRow (initRowRecord company)

/-- Job counters contributed by running the given rows sequentially
(worker_concurrency=1), starting from the `completed=0, failed=0` written by
upload.py. -/
def runJobCounters (rows : List (Nat → AttemptOutcome)) : JobCounters :=
  rows.foldl (fun c oc => (runRow oc).foldl applyWriteCounters c) ⟨0, 0⟩

/-- Prepend one attempt outcome to an outcome sequence (outcome of attempt 0
followed by the outcomes of the later attempts). -/
def consOutcome (a : AttemptOutcome) (f : Nat → AttemptOutcome) : Nat → AttemptOutcome
  | 0 => a
  | k + 1 => f k

/-! ## Single-item path (tasks.py, process_single_prospect)

Same pipeline, but each attempt additionally overwrites the job-level hash:
`{"status": "complete", "completed": "1"}` on success,
`{"status": "failed", "failed": "1"}` on failure (written before the retry
decision). single.py initializes the job hash with status "processing". -/

/-- Job-level `status` values written during a run of
process_single_prospect across its celery attempts. -/
def singleJobStatusAux (outcomes : Nat → AttemptOutcome) : Nat → Nat → List String
  | _, 0 => []
  | k, left + 1 =>
    match outcomes k with
    | AttemptOutcome.ok _ _ => ["complete"]
    | AttemptOutcome.err _ _ => "failed" :: singleJobStatusAux outcomes (k + 1) left

/-- Observable job `status` history for the single-item path: the initial
"processing" written by single.py followed by every job-status write made by
process_single_prospect. -/
def singleJobStatusTrace (outcomes : Nat → AttemptOutcome) : List String :=
  "processing" :: singleJobStatusAux outcomes 0 (max_retries + 1)

/-! ## Finalize (tasks.py, finalize_job)

The chord callback builds RowResult objects from the per-row task returns,
calls write_results (which may raise), and only if that call returns does it
hset the job hash to status "complete" with the output path. If write_results
raises, the exception propagates out of the task and no job-hash write
happens at all. -/

structure RowResultM where
  row_index : Nat
  company_name : String
  status : RowStatus
  deck_url : String
  pptx_url : String
  error : String
  deriving DecidableEq, Repr

/-- The job-level hash fields touched by finalize_job and by the single path. -/
structure JobHash where
  status : String
  output_file : String
  deriving DecidableEq, Repr

/-- finalize_job, with the outcome of the `write_results` persistence step
modelled as an `Except` over the row results (error = the exception it
raised, ok = the output path it returned). On ok the job hash is set to
status "complete" with the output file; on error the hset line is never
reached and the job hash is unchanged. -/
def finalize_job (results : List RowResultM)
    (write_results : List RowResultM → Except String String)
    (job : JobHash) : JobHash :=
  match write_results results with
  | Except.ok output_path => { job with status := "complete", output_file := output_path }
  | Except.error _ => job

/-! ## Adapter retry wrapper (gamma_client.py line 14, researcher.py line 51)

`@retry(stop=stop_after_attempt(2), wait=wait_exponential(...))` from
tenacity: the decorated call is attempted up to 2 times; any exception
whatsoever triggers the retry (no `retry=` predicate is configured), and the
last attempt's outcome propagates. -/

inductive ErrKind
  | transient
  | permanent
  deriving DecidableEq, Repr

structure AdapterError where
  kind : ErrKind
  msg : String
  deriving DecidableEq, Repr

/-- tenacity attempt budget of create_presentation and _query_perplexity. -/
def stop_after_attempt : Nat := 2

/-- The tenacity retry loop: `left` further attempts are allowed after the
current one; an exception on a non-final attempt leads to the next attempt
regardless of the error's classification. Returns the propagated outcome and
the number of calls made to the wrapped adapter. -/
def retryCallAux {α : Type} (attempts : Nat → Except AdapterError α) :
    Nat → Nat → Except AdapterError α × Nat
  | k, 0 => (attempts k, k + 1)
  | k, left + 1 =>
    match attempts k with
    | Except.ok a => (Except.ok a, k + 1)
    | Except.error _ => retryCallAux attempts (k + 1) left

/-- A call through the tenacity wrapper with `stop_after_attempt(2)`. -/
def retryCall {α : Type} (attempts : Nat → Except AdapterError α) :
    Except AdapterError α × Nat :=
  retryCallAux attempts 0 (stop_after_attempt - 1)

/-! ## Research cache (researcher.py lines 173-223, db_models.py ResearchCache)

The cache is keyed by `company_name.strip().lower()`;
`company_name_normalized` carries a UNIQUE constraint. `_check_research_cache`
treats an entry as absent when `(now - created_at).days > 30`.
`_save_research_cache` performs a plain INSERT (`session.add`); when an entry
with the same normalized key already exists the INSERT violates the unique
constraint and the surrounding `except Exception: pass` swallows the error,
leaving the store unchanged. Timestamps are modelled in seconds;
`timedelta.days` is the floor of the difference over 86400. -/

/-- Python's str.strip(): drop leading and trailing whitespace. -/
def pyStrip (s : String) : String :=
  String.mk (((s.data.dropWhile Char.isWhitespace).reverse.dropWhile Char.isWhitespace).reverse)

/-- Python's str.lower(). -/
def pyLower (s : String) : String := String.mk (s.data.map Char.toLower)

structure CacheEntry where
  research_data : String
  created_at : Nat
  deriving DecidableEq, Repr

def RESEARCH_CACHE_TTL_DAYS : Nat := 30

def secondsPerDay : Nat := 86400

/-- Whole days elapsed between two timestamps, as `timedelta.days`. -/
def ageDays (now created : Nat) : Nat := (now - created) / secondsPerDay

/-- Key normalization `company_name.strip().lower()`. -/
def normalizeCompany (s : String) : String := pyLower (pyStrip s)

/-- A cache store: normalized key to entry. -/
def CacheStore : Type := String → Option CacheEntry

def emptyCacheStore : CacheStore := fun _ => none

/-- A store holding exactly one entry. -/
def singleCacheStore (key : String) (e : CacheEntry) : CacheStore :=
  fun k => if k = key then some e else none

/-- _check_research_cache: return the cached payload unless absent or older
than the TTL. -/
def check_research_cache (store : CacheStore) (now : Nat) (company : String) :
    Option String :=
  match store (normalizeCompany company) with
  | none => none
  | some e =>
    if ageDays now e.created_at > RESEARCH_CACHE_TTL_DAYS then none
    else some e.research_data

/-- _save_research_cache: INSERT of a fresh row; a duplicate normalized key
makes the INSERT fail and the exception is silently swallowed, so the store
is unchanged in that case. -/
def save_research_cache (store : CacheStore) (now : Nat) (company value : String) :
    CacheStore :=
  if (store (normalizeCompany company)).isSome then store
  else fun k => if k = normalizeCompany company then some ⟨value, now⟩ else store k

/-- The cache-relevant skeleton of research_company: consult the cache; on a
hit return the cached payload without computing; on a miss compute
(`computed` stands for the payload the live research would produce), attempt
to save it, and return it. Result: (returned payload, store afterwards,
whether the compute path ran). -/
def research_company_cached (store : CacheStore) (now : Nat)
    (company computed : String) : String × CacheStore × Bool :=
  match check_research_cache store now company with
  | some v => (v, store, false)
  | none => (computed, save_research_cache store now company computed, true)

/-! ## Gamma polling (gamma_client.py, _poll_generation and
_parse_gamma_response)

The poll loop runs while `elapsed < max_wait_seconds`; each iteration first
sleeps `poll_interval` seconds (adding it to `elapsed`) and then GETs the
generation. A non-200 response or a non-terminal status continues the loop;
status completed/done/published returns the parsed result; status
failed/error raises RuntimeError; exhausting the budget raises TimeoutError.
The structural fuel `60 = max_wait_seconds / poll_interval` counts the loop
iterations exactly: starting from elapsed 0 the guard admits precisely 60
iterations, so the fuel-exhausted branch coincides with the loop's own exit. -/

structure GammaData where
  id : String
  url : String
  status : String
  errMsg : String
  pptx : String
  pdf : String
  deriving DecidableEq, Repr

structure GammaResultM where
  gamma_id : String
  url : String
  pptx_url : String
  pdf_url : String
  status : String
  deriving DecidableEq, Repr

/-- _parse_gamma_response: fall back to the docs URL built from the id when
the response has no url, and carry over the export links. -/
def parse_gamma_response (d : GammaData) : GammaResultM :=
  let url := if d.url = "" ∧ d.id ≠ "" then "https://gamma.app/docs/" ++ d.id else d.url
  ⟨d.id, url, d.pptx, d.pdf, "completed"⟩

inductive PollOutcome
  | ok (r : GammaResultM)
  | provider_error (msg : String)
  | timeout (msg : String)
  deriving DecidableEq, Repr

def poll_interval : Nat := 5

def max_wait_seconds : Nat := 300

def timeoutMsg (gid : String) : String :=
  "Gamma generation timed out after 300s for ID " ++ gid

/-- The polling loop; `resp k` is (status code, body) of the k-th GET. The
result is paired with the `elapsed` seconds accumulated when it is produced. -/
def poll_generation_aux (resp : Nat → Nat × GammaData) (gid : String) :
    Nat → Nat → Nat → PollOutcome × Nat
  | 0, _, elapsed => (PollOutcome.timeout (timeoutMsg gid), elapsed)
  | fuel + 1, k, elapsed =>
    if elapsed < max_wait_seconds then
      let elapsed' := elapsed + poll_interval
      let code := (resp k).1
      let d := (resp k).2
      if code = 200 then
        if d.status = "completed" ∨ d.status = "done" ∨ d.status = "published" then
          (PollOutcome.ok (parse_gamma_response d), elapsed')
        else if d.status = "failed" ∨ d.status = "error" then
          (PollOutcome.provider_error
            ("Gamma generation failed for ID " ++ gid ++ ": " ++ d.errMsg), elapsed')
        else poll_generation_aux resp gid fuel (k + 1) elapsed'
      else poll_generation_aux resp gid fuel (k + 1) elapsed'
    else (PollOutcome.timeout (timeoutMsg gid), elapsed)

/-- _poll_generation with its default budget (max_wait_seconds=300,
poll_interval=5): at most 60 polls. -/
def poll_generation (resp : Nat → Nat × GammaData) (gid : String) :
    PollOutcome × Nat :=
  poll_generation_aux resp gid 60 0 0

/-! ## Status route (routes/status.py, get_job_status) -/

/-- Python's round: round half to even. -/
def pythonRound (q : ℚ) : ℤ :=
  let f := ⌊q⌋
  let r := q - f
  if r < 1 / 2 then f
  else if 1 / 2 < r then f + 1
  else if f % 2 = 0 then f else f + 1

/-- The progress computation of get_job_status:
`round((completed + failed) / total_rows * 100) if total_rows > 0 else 0`. -/
def get_job_status_progress (total completed failed : Nat) : ℤ :=
  if 0 < total then pythonRound (((completed : ℚ) + (failed : ℚ)) / (total : ℚ) * 100)
  else 0

/-- The spec's formula, written as the spec words it:
`round(100 × (completed+failed)/total_rows)`, and 0 when total_rows is 0. -/
def progress_percent_spec (total completed failed : Nat) : ℤ :=
  if total = 0 then 0
  else pythonRound (100 * ((completed : Nat) + failed : ℚ) / (total : ℚ))

/-- The per-row listing of get_job_status: it iterates
`range(2, total_rows + 2)` and keeps the indices whose row hash exists. -/
def list_rows (store : Nat → Option RowRecord) (total : Nat) :
    List (Nat × RowRecord) :=
  (List.range' 2 total).filterMap (fun i => (store i).map (fun r => (i, r)))

/-! ## Excel parsing and upload (services/excel_parser.py, routes/upload.py)

parse_excel walks the data rows (the rows after the header) with
`enumerate(rows[1:], start=2)`, skipping rows whose company-name cell is
empty after stripping; `row_index` is the original spreadsheet row number.
Only the company-name cell matters for indexing, so a raw data row is
modelled by that cell. upload.py sets `total_rows` to the number of parsed
rows and initializes one row hash per parsed row at its `row_index`. -/

/-- Row indexing of parse_excel: `idx` is the spreadsheet row number of the
head of the remaining rows. -/
def parse_excel_aux (idx : Nat) : List String → List (Nat × String)
  | [] => []
  | s :: rest =>
    if pyStrip s = "" then parse_excel_aux (idx + 1) rest
    else (idx, s) :: parse_excel_aux (idx + 1) rest

/-- parse_excel over the data rows (header already removed): pairs
(row_index, company_name), starting at spreadsheet row 2. -/
def parse_excel_rows (dataRows : List String) : List (Nat × String) :=
  parse_excel_aux 2 dataRows

/-- The per-row hashes written by upload.py before queueing work: one QUEUED
record per parsed row, stored under its row_index. -/
def upload_init_store (dataRows : List String) : Nat → Option RowRecord :=
  fun i =>
    ((parse_excel_rows dataRows).find? (fun p => p.1 = i)).map
      (fun p => initRowRecord p.2)

/-- The status history produced by a single attempt of the pipeline,
including the initial QUEUED. -/
def attemptStatusTrace (oc : AttemptOutcome) : List RowStatus :=
  RowStatus.queued :: (attemptWrites oc).map StatusWrite.status

/-! ## Claim-level predicates -/

def isTerminal : RowStatus → Bool
  | RowStatus.complete => true
  | RowStatus.failed => true
  | _ => false

/-- The full forward chain of row statuses named by the spec. -/
def fullChain : List RowStatus :=
  [RowStatus.queued, RowStatus.researching, RowStatus.generating_content,
   RowStatus.creating_deck, RowStatus.complete]

/-- The spec's shape condition on a row's status history: a prefix of the
chain, or such a prefix followed by Failed. -/
def goodRowTrace (t : List RowStatus) : Bool :=
  t.isPrefixOf fullChain ||
    (t.getLast? == some RowStatus.failed && t.dropLast.isPrefixOf fullChain)

/-- No transition out of a terminal state: a terminal element is never
followed by a different status. -/
def noExitFromTerminal : List RowStatus → Bool
  | [] => true
  | [_] => true
  | a :: b :: r => (!(isTerminal a) || (a == b)) && noExitFromTerminal (b :: r)

/-- Only the last element of the history may be COMPLETE. -/
def completeOnlyLast : List RowStatus → Bool
  | [] => true
  | [_] => true
  | a :: b :: r => (!(a == RowStatus.complete)) && completeOnlyLast (b :: r)

/-- String version of completeOnlyLast for job status histories. -/
def completeOnlyLastS : List String → Bool
  | [] => true
  | [_] => true
  | a :: b :: r => (!(a == "complete")) && completeOnlyLastS (b :: r)

/-- Monotonicity of a job status history: once "complete" or "failed" is
written, every later value is the same. -/
def jobStatusMonotonicS : List String → Bool
  | [] => true
  | [_] => true
  | a :: b :: r =>
    (!(a == "complete" || a == "failed") || (a == b)) && jobStatusMonotonicS (b :: r)

/-- The last error message carried by a sequence of row-status writes, if any. -/
def lastErrorWrite (ws : List StatusWrite) : Option String :=
  ws.foldl (fun acc w => match w.error with | some m => some m | none => acc) none

/-! ## Concrete scenario inputs -/

/-- A row that fails transiently on its first two attempts and succeeds on
the third. -/
def c1Outcomes : Nat → AttemptOutcome
  | 0 => AttemptOutcome.err Stage.research "TimeoutError: request timed out"
  | 1 => AttemptOutcome.err Stage.research "TimeoutError: request timed out"
  | _ => AttemptOutcome.ok "https://gamma.app/docs/c1" "https://gamma.app/exports/c1.pptx"

/-- A row that fails once and succeeds on the retry. -/
def c2Outcomes : Nat → AttemptOutcome :=
  consOutcome (AttemptOutcome.err Stage.research "httpx.HTTPStatusError: Server error 500")
    (fun _ => AttemptOutcome.ok "https://gamma.app/docs/c2" "https://gamma.app/exports/c2.pptx")

/-- Adapter attempts where the first call fails with a permanent 4xx
validation error and the second succeeds. -/
def c3Attempts : Nat → Except AdapterError GammaResultM
  | 0 => Except.error ⟨ErrKind.permanent, "httpx.HTTPStatusError: Client error 400"⟩
  | _ => Except.ok ⟨"c3", "https://gamma.app/docs/c3", "", "", "completed"⟩

/-- A row whose first attempt fails with a permanent 4xx error and whose
second attempt succeeds. -/
def c3RowOutcomes : Nat → AttemptOutcome :=
  consOutcome (AttemptOutcome.err Stage.deck "httpx.HTTPStatusError: Client error 400")
    (fun _ => AttemptOutcome.ok "https://gamma.app/docs/c3" "")

/-- A failing write_results persistence step. -/
def c4WriteResults : List RowResultM → Except String String :=
  fun _ => Except.error "OSError: disk full"

/-- Job hash as initialized at submission time. -/
def jobProcessing : JobHash := ⟨"processing", ""⟩

/-- Single-item run failing on attempt 1 and succeeding on attempt 2. -/
def c5Outcomes : Nat → AttemptOutcome :=
  consOutcome (AttemptOutcome.err Stage.content "RuntimeError: model unavailable")
    (fun _ => AttemptOutcome.ok "https://gamma.app/docs/c5" "https://gamma.app/exports/c5.pptx")

/-- A cache entry written at time 0. -/
def c6StaleStore : CacheStore :=
  singleCacheStore (normalizeCompany "Acme") ⟨"old research payload", 0⟩

/-- A poll body reporting the generation still in progress. -/
def processingData : GammaData := ⟨"g7", "", "processing", "", "", ""⟩

/-- A poll body reporting the generation finished. -/
def completedData : GammaData :=
  ⟨"g7", "https://gamma.app/docs/g7", "completed", "", "https://gamma.app/exports/g7.pptx", ""⟩

/-- Gamma polls: processing for the first two polls, then completed. -/
def c7Resp : Nat → Nat × GammaData
  | 0 => (200, processingData)
  | 1 => (200, processingData)
  | _ => (200, completedData)

/-- Gamma polls that never leave the processing state. -/
def c7StuckResp : Nat → Nat × GammaData := fun _ => (200, processingData)

/-- Gamma polls reporting a provider-side failure. -/
def c7FailedResp : Nat → Nat × GammaData :=
  fun _ => (200, ⟨"g7", "", "failed", "quota exceeded", "", ""⟩)

/-- A row failing on attempt 1 with an error message and completing on the
retry. -/
def c9Outcomes : Nat → AttemptOutcome :=
  consOutcome (AttemptOutcome.err Stage.content "RuntimeError: boom")
    (fun _ => AttemptOutcome.ok "https://gamma.app/docs/c9" "https://gamma.app/exports/c9.pptx")

/-! ## Helper lemmas -/

theorem completeOnlyLast_append (xs ys : List RowStatus)
    (h1 : RowStatus.complete ∉ xs) (h2 : completeOnlyLast ys = true) :
    completeOnlyLast (xs ++ ys) = true := by
  induction xs with
  | nil => simpa using h2
  | cons a xs ih =>
    have ha : a ≠ RowStatus.complete := fun h => h1 (by simp [h])
    have ih' := ih (fun hm => h1 (List.mem_cons_of_mem _ hm))
    rw [List.cons_append]
    cases hxy : xs ++ ys with
    | nil => rfl
    | cons b r =>
      rw [hxy] at ih'
      show ((!(a == RowStatus.complete)) && completeOnlyLast (b :: r)) = true
      rw [ih', Bool.and_true, Bool.not_eq_true', beq_eq_false_iff_ne]
      exact ha

theorem complete_not_mem_err_statuses (st : Stage) (m : String) :
    RowStatus.complete ∉ (attemptWrites (AttemptOutcome.err st m)).map StatusWrite.status := by
  cases st <;> simp [attemptWrites, setStatus]

theorem completeOnlyLast_runRowAux (oc : Nat → AttemptOutcome) :
    ∀ left k, completeOnlyLast ((runRowAux oc k left).map StatusWrite.status) = true := by
  intro left
  induction left with
  | zero => intro k; rfl
  | succ left ih =>
    intro k
    show completeOnlyLast ((runRowAux oc k (left + 1)).map StatusWrite.status) = true
    unfold runRowAux
    cases h : oc k with
    | ok d p => rfl
    | err st m =>
      rw [List.map_append]
      exact completeOnlyLast_append _ _ (complete_not_mem_err_statuses st m) (ih (k + 1))

theorem completeOnlyLastS_cons (a : String) (t : List String)
    (ha : a ≠ "complete") (h : completeOnlyLastS t = true) :
    completeOnlyLastS (a :: t) = true := by
  cases t with
  | nil => rfl
  | cons b r =>
    show ((!(a == "complete")) && completeOnlyLastS (b :: r)) = true
    rw [h, Bool.and_true, Bool.not_eq_true', beq_eq_false_iff_ne]
    exact ha

theorem completeOnlyLastS_singleJobAux (oc : Nat → AttemptOutcome) :
    ∀ left k, completeOnlyLastS (singleJobStatusAux oc k left) = true := by
  intro left
  induction left with
  | zero => intro k; rfl
  | succ left ih =>
    intro k
    show completeOnlyLastS (singleJobStatusAux oc k (left + 1)) = true
    unfold singleJobStatusAux
    cases h : oc k with
    | ok d p => rfl
    | err st m => exact completeOnlyLastS_cons _ _ (by decide) (ih (k + 1))

theorem lastErrorWrite_foldl (ws : List StatusWrite) :
    ∀ acc : Option String,
      ws.foldl (fun acc w => match w.error with | some m => some m | none => acc) acc
        = match lastErrorWrite ws with | some m => some m | none => acc := by
  induction ws with
  | nil => intro acc; rfl
  | cons w ws ih =>
    intro acc
    show ws.foldl _ (match w.error with | some m => some m | none => acc)
        = match lastErrorWrite (w :: ws) with | some m => some m | none => acc
    have hlast : lastErrorWrite (w :: ws)
        = ws.foldl (fun acc w => match w.error with | some m => some m | none => acc)
            (match w.error with | some m => some m | none => none) := rfl
    rw [ih, hlast, ih]
    cases hlw : lastErrorWrite ws with
    | some m => rfl
    | none => cases w.error <;> rfl

theorem error_foldl_applyWriteRow (ws : List StatusWrite) :
    ∀ r : RowRecord,
      ((ws.foldl applyWriteRow r).error) = (lastErrorWrite ws).getD r.error := by
  induction ws with
  | nil => intro r; rfl
  | cons w ws ih =>
    intro r
    show ((ws.foldl applyWriteRow (applyWriteRow r w)).error)
        = (lastErrorWrite (w :: ws)).getD r.error
    have hlast : lastErrorWrite (w :: ws)
        = ws.foldl (fun acc w => match w.error with | some m => some m | none => acc)
            (match w.error with | some m => some m | none => none) := rfl
    rw [ih, hlast, lastErrorWrite_foldl]
    cases hlw : lastErrorWrite ws with
    | some m => rfl
    | none =>
      cases hwe : w.error with
      | some m => simp [applyWriteRow, hwe]
      | none => simp [applyWriteRow, hwe]

/-! ## Claim theorems -/

/-- C1: the code violates the counter invariant. A single-row job whose row
fails transiently twice and completes on its third attempt ends with
completed = 1 and failed = 2, because `_update_row_status` increments the
failed counter on every FAILED write, including the ones made before a
retry; so completed + failed = 3 > total_rows = 1, and the corresponding
increments happened three times for the one row rather than exactly once. -/
theorem C1_counter_over_increment :
    (runJobCounters [c1Outcomes]).completed = 1 ∧
    (runJobCounters [c1Outcomes]).failed = 2 ∧
    ([c1Outcomes] : List (Nat → AttemptOutcome)).length = 1 ∧
    ¬ ((runJobCounters [c1Outcomes]).completed + (runJobCounters [c1Outcomes]).failed
        ≤ ([c1Outcomes] : List (Nat → AttemptOutcome)).length) := by
  refine ⟨rfl, rfl, rfl, ?_⟩
  decide

/-- C2 counterexample: a row that fails transiently and is retried writes
Failed and then starts over at Researching, so its status history is neither
a prefix of the chain (optionally ended in Failed) nor free of transitions
out of the terminal state Failed. -/
theorem C2_trace_counterexample :
    goodRowTrace (rowStatusTrace c2Outcomes) = false ∧
    noExitFromTerminal (rowStatusTrace c2Outcomes) = false := by
  constructor <;> rfl

/-- C2 amended: the statuses written by each single attempt form a prefix of
Queued, Researching, GeneratingContent, CreatingArtifact, Complete or such a
prefix followed by Failed, with no transition out of a terminal state inside
the attempt; and across the whole run (retries included) no transition ever
occurs out of Complete — only a Failed written before a retry is followed by
the new attempt's statuses. -/
theorem C2_amended_trace_shape :
    (∀ oc : AttemptOutcome,
      goodRowTrace (attemptStatusTrace oc) = true ∧
      noExitFromTerminal (attemptStatusTrace oc) = true) ∧
    (∀ outcomes : Nat → AttemptOutcome,
      completeOnlyLast (rowStatusTrace outcomes) = true) := by
  constructor
  · intro oc
    cases oc with
    | ok d p => exact ⟨rfl, rfl⟩
    | err st m => cases st <;> exact ⟨rfl, rfl⟩
  · intro outcomes
    show completeOnlyLast
      (([RowStatus.queued] ++ (runRow outcomes).map StatusWrite.status)) = true
    exact completeOnlyLast_append _ _ (by simp)
      (completeOnlyLast_runRowAux outcomes (max_retries + 1) 0)

/-- C3: the code retries permanent failures. A first adapter call failing
with a permanent 4xx validation error is retried by the tenacity wrapper
(two calls are made and the second one's success is returned), and a row
whose attempt fails with a permanent error is re-run from the top
(Researching is written twice), contradicting the claim that Permanent
failures surface immediately with no retry. -/
theorem C3_permanent_error_retried :
    retryCall c3Attempts
      = (Except.ok ⟨"c3", "https://gamma.app/docs/c3", "", "", "completed"⟩, 2) ∧
    (rowStatusTrace c3RowOutcomes).count RowStatus.researching = 2 := by
  constructor <;> rfl

/-- C4 counterexample: when finalize's persistence step fails, the job hash
is left untouched — its status stays "processing" and never becomes
"failed", contradicting the claim that Job.status becomes Failed exactly
when Finalize's persistence step fails. -/
theorem C4_persistence_failure_counterexample :
    (finalize_job [] c4WriteResults jobProcessing).status = "processing" ∧
    (finalize_job [] c4WriteResults jobProcessing).status ≠ "failed" := by
  constructor
  · rfl
  · decide

/-- C4 amended: when every row of a batch job is terminal, finalize sets
Job.status = "complete" regardless of the row outcomes (failed rows
included); but when its own persistence step fails the job hash is left
unchanged — status remains "processing" — so the job never becomes Failed in
the batch path. -/
theorem C4_amended_finalize :
    (∀ (results : List RowResultM) (path : String) (job : JobHash),
      finalize_job results (fun _ => Except.ok path) job
        = { job with status := "complete", output_file := path }) ∧
    (∀ (results : List RowResultM) (e : String) (job : JobHash),
      finalize_job results (fun _ => Except.error e) job = job) := by
  exact ⟨fun _ _ _ => rfl, fun _ _ _ => rfl⟩

/-- C5 counterexample: in the single-item path, a run whose first attempt
fails and whose retry succeeds writes job status "failed" and then
"complete", so Job.status is not monotonic — it leaves the terminal value
Failed. -/
theorem C5_monotonicity_counterexample :
    singleJobStatusTrace c5Outcomes = ["processing", "failed", "complete"] ∧
    jobStatusMonotonicS (singleJobStatusTrace c5Outcomes) = false := by
  constructor <;> rfl

/-- C5 amended: in the single-item path the job status written after each
attempt is the attempt's outcome; once "complete" is written the run stops,
so no later value follows it, and the history is monotonic whenever the
first attempt succeeds — but a "failed" written before a retry is
overwritten by the retry's outcome. -/
theorem C5_amended_single_path :
    (∀ outcomes : Nat → AttemptOutcome,
      completeOnlyLastS (singleJobStatusTrace outcomes) = true) ∧
    (∀ (d p : String) (rest : Nat → AttemptOutcome),
      singleJobStatusTrace (consOutcome (AttemptOutcome.ok d p) rest)
        = ["processing", "complete"] ∧
      jobStatusMonotonicS
        (singleJobStatusTrace (consOutcome (AttemptOutcome.ok d p) rest)) = true) := by
  constructor
  · intro outcomes
    exact completeOnlyLastS_cons _ _ (by decide)
      (completeOnlyLastS_singleJobAux outcomes (max_retries + 1) 0)
  · intro d p rest
    exact ⟨rfl, rfl⟩

/-- C6 counterexample: with a stale entry (written at time 0) still present
at T+31 days, GetOrCompute recomputes and returns the fresh value, but the
INSERT performed by _save_research_cache hits the unique constraint on the
normalized key and is silently skipped, so the stale entry is NOT
overwritten — the store still holds the old payload. -/
theorem C6_stale_entry_not_overwritten :
    (research_company_cached c6StaleStore (31 * 86400) "Acme" "new research payload").1
      = "new research payload" ∧
    (research_company_cached c6StaleStore (31 * 86400) "Acme" "new research payload").2.2
      = true ∧
    (research_company_cached c6StaleStore (31 * 86400) "Acme" "new research payload").2.1
        (normalizeCompany "Acme")
      = some ⟨"old research payload", 0⟩ ∧
    (⟨"old research payload", 0⟩ : CacheEntry) ≠ ⟨"new research payload", 31 * 86400⟩ := by
  refine ⟨by decide, by decide, by decide, by decide⟩

/-- C6 amended: a value stored at T is returned unchanged at T+29 days
without running the compute path; at T+31 days the compute path runs and its
result is returned — but the store is left unchanged whenever an entry (even
a stale one) already exists under the key; the computed result is stored
only when the key is absent. -/
theorem C6_amended_cache :
    (∀ (company payload computed : String) (T : Nat),
      research_company_cached (singleCacheStore (normalizeCompany company) ⟨payload, T⟩)
          (T + 29 * secondsPerDay) company computed
        = (payload, singleCacheStore (normalizeCompany company) ⟨payload, T⟩, false)) ∧
    (∀ (company payload computed : String) (T : Nat),
      research_company_cached (singleCacheStore (normalizeCompany company) ⟨payload, T⟩)
          (T + 31 * secondsPerDay) company computed
        = (computed, singleCacheStore (normalizeCompany company) ⟨payload, T⟩, true)) ∧
    (∀ (company computed : String) (now : Nat) (k : String),
      (research_company_cached emptyCacheStore now company computed).1 = computed ∧
      (research_company_cached emptyCacheStore now company computed).2.2 = true ∧
      (research_company_cached emptyCacheStore now company computed).2.1 k
        = singleCacheStore (normalizeCompany company) ⟨computed, now⟩ k) := by
  have hstore : ∀ (company payload : String) (T : Nat),
      singleCacheStore (normalizeCompany company) ⟨payload, T⟩ (normalizeCompany company)
        = some ⟨payload, T⟩ := by
    intro company payload T
    unfold singleCacheStore
    rw [if_pos rfl]
  refine ⟨?_, ?_, ?_⟩
  · intro company payload computed T
    have hage : ageDays (T + 29 * secondsPerDay) T = 29 := by
      simp [ageDays, Nat.add_sub_cancel_left, secondsPerDay]
    have hcheck : check_research_cache
        (singleCacheStore (normalizeCompany company) ⟨payload, T⟩)
        (T + 29 * secondsPerDay) company = some payload := by
      unfold check_research_cache
      rw [hstore]
      show (if ageDays (T + 29 * secondsPerDay) T > RESEARCH_CACHE_TTL_DAYS then none
            else some payload) = some payload
      rw [hage]
      simp [RESEARCH_CACHE_TTL_DAYS]
    unfold research_company_cached
    rw [hcheck]
  · intro company payload computed T
    have hage : ageDays (T + 31 * secondsPerDay) T = 31 := by
      simp [ageDays, Nat.add_sub_cancel_left, secondsPerDay]
    have hcheck : check_research_cache
        (singleCacheStore (normalizeCompany company) ⟨payload, T⟩)
        (T + 31 * secondsPerDay) company = none := by
      unfold check_research_cache
      rw [hstore]
      show (if ageDays (T + 31 * secondsPerDay) T > RESEARCH_CACHE_TTL_DAYS then none
            else some payload) = none
      rw [hage]
      simp [RESEARCH_CACHE_TTL_DAYS]
    have hsave : save_research_cache
        (singleCacheStore (normalizeCompany company) ⟨payload, T⟩)
        (T + 31 * secondsPerDay) company computed
        = singleCacheStore (normalizeCompany company) ⟨payload, T⟩ := by
      unfold save_research_cache
      rw [hstore]
      rfl
    unfold research_company_cached
    rw [hcheck, hsave]
  · intro company computed now k
    exact ⟨rfl, rfl, rfl⟩

/-- C7 counterexample: with the provider reporting "processing" on the first
two polls and "completed" on the third, the poll loop (which sleeps one
interval before each poll) returns success after 15 seconds of waiting,
i.e. 3 poll intervals, not 2. -/
theorem C7_poll_intervals_counterexample :
    poll_generation c7Resp "g7"
      = (PollOutcome.ok ⟨"g7", "https://gamma.app/docs/g7",
          "https://gamma.app/exports/g7.pptx", "", "completed"⟩, 15) ∧
    (15 : Nat) ≠ 2 * poll_interval := by
  refine ⟨rfl, by decide⟩

set_option maxRecDepth 8192 in
/-- C7 amended: the scenario completes with a non-empty primary URL after
exactly 3 poll intervals (the loop sleeps one interval before every poll,
including the completing one); a handle that never reaches a terminal state
runs out the whole 300-second budget and fails with a Timeout outcome,
which is a different error kind from a provider-reported failure. -/
theorem C7_amended_poll_timing :
    (poll_generation c7Resp "g7"
      = (PollOutcome.ok ⟨"g7", "https://gamma.app/docs/g7",
          "https://gamma.app/exports/g7.pptx", "", "completed"⟩, 3 * poll_interval) ∧
      "https://gamma.app/docs/g7" ≠ "") ∧
    poll_generation c7StuckResp "g7"
      = (PollOutcome.timeout (timeoutMsg "g7"), max_wait_seconds) ∧
    poll_generation c7FailedResp "g7"
      = (PollOutcome.provider_error "Gamma generation failed for ID g7: quota exceeded",
          poll_interval) ∧
    (∀ m m' : String, PollOutcome.timeout m ≠ PollOutcome.provider_error m') := by
  refine ⟨⟨rfl, by decide⟩, rfl, rfl, ?_⟩
  intro m m' h
  exact PollOutcome.noConfusion h

/-- C8: get_job_status computes progress_percent exactly as the spec states:
round(100 × (completed+failed)/total_rows) with Python's round-half-to-even,
and 0 when total_rows is 0. -/
theorem C8_progress_percent :
    ∀ total completed failed : Nat,
      get_job_status_progress total completed failed
        = progress_percent_spec total completed failed := by
  intro t c f
  rcases Nat.eq_zero_or_pos t with h | h
  · subst h
    rfl
  · have ht0 : t ≠ 0 := Nat.pos_iff_ne_zero.mp h
    unfold get_job_status_progress progress_percent_spec
    rw [if_pos h, if_neg ht0]
    congr 1
    ring

/-- C9 counterexample: a row that fails on its first attempt and completes on
the retry ends with status Complete but a non-empty error field, because the
COMPLETE write does not supply (and hence does not clear) the error field of
the row hash. -/
theorem C9_error_field_counterexample :
    (finalRow "Acme" c9Outcomes).status = RowStatus.complete ∧
    (finalRow "Acme" c9Outcomes).error = "RuntimeError: boom" ∧
    (finalRow "Acme" c9Outcomes).error ≠ "" := by
  refine ⟨rfl, rfl, by decide⟩

/-- C9 amended: the row's error field always equals the message of the last
FAILED write of the run (it is never cleared by later writes), and is empty
when the first attempt succeeds; in particular a row that failed earlier and
completes on a retry keeps the old failure message. -/
theorem C9_amended_error_retention :
    (∀ (company : String) (outcomes : Nat → AttemptOutcome),
      (finalRow company outcomes).error = (lastErrorWrite (runRow outcomes)).getD "") ∧
    (∀ (company d p : String) (rest : Nat → AttemptOutcome),
      finalRow company (consOutcome (AttemptOutcome.ok d p) rest)
        = ⟨company, RowStatus.complete, d, p, ""⟩) := by
  constructor
  · intro company outcomes
    exact error_foldl_applyWriteRow (runRow outcomes) (initRowRecord company)
  · intro company d p rest
    rfl

theorem parse_excel_aux_cons (idx : Nat) (s : String) (rest : List String) :
    parse_excel_aux idx (s :: rest)
      = if pyStrip s = "" then parse_excel_aux (idx + 1) rest
        else (idx, s) :: parse_excel_aux (idx + 1) rest := rfl

theorem parse_excel_aux_append (l1 l2 : List String) :
    ∀ idx, parse_excel_aux idx (l1 ++ l2)
      = parse_excel_aux idx l1 ++ parse_excel_aux (idx + l1.length) l2 := by
  induction l1 with
  | nil => intro idx; simp [parse_excel_aux]
  | cons s rest ih =>
    intro idx
    have hlen : idx + (s :: rest).length = (idx + 1) + rest.length := by
      simp only [List.length_cons]
      omega
    rw [List.cons_append, parse_excel_aux_cons, parse_excel_aux_cons]
    by_cases hs : pyStrip s = ""
    · rw [if_pos hs, if_pos hs, ih (idx + 1), hlen]
    · rw [if_neg hs, if_neg hs, ih (idx + 1), hlen, List.cons_append]

theorem parse_excel_aux_length_le (l : List String) :
    ∀ idx, (parse_excel_aux idx l).length ≤ l.length := by
  induction l with
  | nil => intro idx; simp [parse_excel_aux]
  | cons s rest ih =>
    intro idx
    rw [parse_excel_aux_cons]
    by_cases hs : pyStrip s = ""
    · rw [if_pos hs]
      exact le_trans (ih (idx + 1)) (by simp)
    · rw [if_neg hs]
      have := ih (idx + 1)
      simp only [List.length_cons]
      omega

theorem parse_excel_aux_all_blank (l : List String) :
    (∀ s ∈ l, pyStrip s = "") → ∀ idx, parse_excel_aux idx l = [] := by
  induction l with
  | nil => intro _ idx; rfl
  | cons s rest ih =>
    intro h idx
    rw [parse_excel_aux_cons, if_pos (h s (List.mem_cons_self s rest))]
    exact ih (fun t ht => h t (List.mem_cons_of_mem _ ht)) (idx + 1)

theorem parse_excel_aux_last_bound (l : List String) :
    (∃ s ∈ l, pyStrip s ≠ "") →
    ∀ idx, ∃ i x, (i, x) ∈ parse_excel_aux idx l ∧
      idx + (parse_excel_aux idx l).length ≤ i + 1 := by
  induction l with
  | nil => intro h; simp at h
  | cons s rest ih =>
    intro h idx
    by_cases hs : pyStrip s = ""
    · have hr : ∃ t ∈ rest, pyStrip t ≠ "" := by
        obtain ⟨t, ht, htt⟩ := h
        rcases List.mem_cons.mp ht with rfl | ht'
        · exact absurd hs htt
        · exact ⟨t, ht', htt⟩
      have heq : parse_excel_aux idx (s :: rest) = parse_excel_aux (idx + 1) rest := by
        rw [parse_excel_aux_cons, if_pos hs]
      obtain ⟨i, x, hmem, hbound⟩ := ih hr (idx + 1)
      refine ⟨i, x, ?_, ?_⟩
      · rw [heq]; exact hmem
      · rw [heq]; omega
    · have heq : parse_excel_aux idx (s :: rest)
          = (idx, s) :: parse_excel_aux (idx + 1) rest := by
        rw [parse_excel_aux_cons, if_neg hs]
      by_cases hr : ∃ t ∈ rest, pyStrip t ≠ ""
      · obtain ⟨i, x, hmem, hbound⟩ := ih hr (idx + 1)
        refine ⟨i, x, ?_, ?_⟩
        · rw [heq]; exact List.mem_cons_of_mem _ hmem
        · rw [heq]; simp only [List.length_cons]; omega
      · push_neg at hr
        have hempty := parse_excel_aux_all_blank rest hr (idx + 1)
        refine ⟨idx, s, ?_, ?_⟩
        · rw [heq]; exact List.mem_cons_self _ _
        · rw [heq, hempty]; simp

/-- C10: the rows array of get_job_status lists only the indices of the
contiguous range [2, total_rows + 1]; any row whose row_index falls outside
that range is omitted from the listing no matter what its status record
holds; and whenever parse_excel skipped a blank spreadsheet row before some
parsed row, some parsed row's index exceeds total_rows + 1, its status
record exists in the store written by upload, and it is omitted from the
listing. -/
theorem C10_rows_listing :
    (∀ (store : Nat → Option RowRecord) (total i : Nat) (r : RowRecord),
      (i, r) ∈ list_rows store total → 2 ≤ i ∧ i ≤ total + 1) ∧
    (∀ (store : Nat → Option RowRecord) (total i : Nat),
      total + 1 < i → ∀ r : RowRecord, (i, r) ∉ list_rows store total) ∧
    (∀ (dataRows l1 l2 : List String) (b : String),
      dataRows = l1 ++ b :: l2 → pyStrip b = "" → (∃ s ∈ l2, pyStrip s ≠ "") →
      ∃ i x, (i, x) ∈ parse_excel_rows dataRows ∧
        (upload_init_store dataRows i).isSome ∧
        (parse_excel_rows dataRows).length + 1 < i ∧
        ∀ r : RowRecord, (i, r) ∉ list_rows (upload_init_store dataRows)
          (parse_excel_rows dataRows).length) := by
  have part1 : ∀ (store : Nat → Option RowRecord) (total i : Nat) (r : RowRecord),
      (i, r) ∈ list_rows store total → 2 ≤ i ∧ i ≤ total + 1 := by
    intro store total i r hmem
    unfold list_rows at hmem
    obtain ⟨j, hj, hjeq⟩ := List.mem_filterMap.mp hmem
    obtain ⟨hj1, hj2⟩ := List.mem_range'_1.mp hj
    cases hs : store j with
    | none => rw [hs] at hjeq; simp at hjeq
    | some rr =>
      rw [hs] at hjeq
      simp only [Option.map_some', Option.some.injEq, Prod.mk.injEq] at hjeq
      obtain ⟨rfl, rfl⟩ := hjeq.1, hjeq.2
      omega
  have part2 : ∀ (store : Nat → Option RowRecord) (total i : Nat),
      total + 1 < i → ∀ r : RowRecord, (i, r) ∉ list_rows store total := by
    intro store total i hi r hmem
    have := part1 store total i r hmem
    omega
  refine ⟨part1, part2, ?_⟩
  intro dataRows l1 l2 b hsplit hb hl2
  have hparse : parse_excel_rows dataRows
      = parse_excel_aux 2 l1 ++ parse_excel_aux (2 + l1.length + 1) l2 := by
    unfold parse_excel_rows
    rw [hsplit, parse_excel_aux_append l1 (b :: l2) 2]
    congr 1
    rw [parse_excel_aux_cons, if_pos hb]
  obtain ⟨i, x, hmem, hbound⟩ := parse_excel_aux_last_bound l2 hl2 (2 + l1.length + 1)
  have hmem' : (i, x) ∈ parse_excel_rows dataRows := by
    rw [hparse]
    exact List.mem_append_right _ hmem
  have hlen1 := parse_excel_aux_length_le l1 2
  have htotal : (parse_excel_rows dataRows).length
      = (parse_excel_aux 2 l1).length + (parse_excel_aux (2 + l1.length + 1) l2).length := by
    rw [hparse, List.length_append]
  have hrange : (parse_excel_rows dataRows).length + 1 < i := by omega
  refine ⟨i, x, hmem', ?_, hrange, ?_⟩
  · unfold upload_init_store
    have : ((parse_excel_rows dataRows).find? (fun p => p.1 = i)).isSome := by
      rw [List.find?_isSome]
      exact ⟨(i, x), hmem', by simp⟩
    cases hf : (parse_excel_rows dataRows).find? (fun p => p.1 = i) with
    | none => rw [hf] at this; simp at this
    | some p => rfl
  · exact part2 _ _ i hrange

/-- C10 witness: the concrete sheet with a blank first data row followed by
one prospect; the prospect is stored under row_index 3 but total_rows is 1,
so the listing range [2, 2] omits it. -/
theorem C10_witness :
    ∃ i x, (i, x) ∈ parse_excel_rows ["", "Acme"] ∧
      (upload_init_store ["", "Acme"] i).isSome ∧
      (parse_excel_rows ["", "Acme"]).length + 1 < i ∧
      ∀ r : RowRecord, (i, r) ∉ list_rows (upload_init_store ["", "Acme"])
        (parse_excel_rows ["", "Acme"]).length :=
  C10_rows_listing.2.2 ["", "Acme"] [] ["Acme"] "" rfl (by decide)
    ⟨"Acme", by decide, by decide⟩

end LakeB2B
